import Mathlib

set_option maxRecDepth 10000

/-!
Verification development for the dScaff contigs-indexing pipeline
(`contigs_indexing.py`).  The Python source is shallowly embedded:

* an input file's rows (already split on tabs/commas by the `csv` module)
  are a `List (List String)`;
* where the program compares parsed values as numbers (filter thresholds,
  orientation) Python `float(s)` is modelled by
  `pyFloat? : String → Option Rat` on the plain-numeral fragment, with
  `none` for any string float() rejects and for the non-rational
  `nan`/`inf` literals — on those paths a NaN value and a parse failure
  behave identically (skipped row, "minus", NaN sentinel);
* on the sort path, where NaN is observable, `float` is modelled in full
  by `pyFloatFull? : String → Option PyFloat` with distinct NaN and
  infinity values, Python's `<` by `pyLt` (false on every NaN
  comparison), and `list.sort` by CPython's own algorithm (`pyListSort`);
* raised-and-caught exceptions are modelled with `Except`/`Option`;
* an unreadable file (where `open` raises) is modelled as a `none` input.

Away from the sort key, machine floats in the source only ever hold
values parsed from decimal strings and results of one
multiplication/division, compared with `<`/`>=`; exact rationals model
them faithfully on that fragment.
-/

/-- Column index of the `length` field in a 13-column record. -/
def IDX_LENGTH : Nat := 3

/-- Column index of the `E_value` field in a 13-column record. -/
def IDX_EVALUE : Nat := 10

/-- Column index of the `gene_length` field in a 13-column record. -/
def IDX_GENELEN : Nat := 12

/-- Value of a digit string read most-significant-first. -/
def digitsToNat (ds : List Char) : Nat :=
  ds.foldl (fun n c => 10 * n + (c.toNat - 48)) 0

/-- Characters of a string with the surrounding whitespace removed,
modelling Python `str.strip()` (and Lean `String.trim`) structurally so
that it evaluates by kernel reduction. -/
def trimChars (cs : List Char) : List Char :=
  ((cs.dropWhile Char.isWhitespace).reverse.dropWhile Char.isWhitespace).reverse

/-- Splits a character list at every character satisfying `p`, keeping
empty chunks, like Python `str.split(sep)` for a one-character separator. -/
def splitIf (p : Char → Bool) : List Char → List (List Char)
  | [] => [[]]
  | c :: rest =>
    let r := splitIf p rest
    if p c then [] :: r
    else
      match r with
      | [] => [[c]]
      | h :: t => (c :: h) :: t

/-- Model of Python `float` on an already-stripped character list,
restricted to the finite rational values: an optional sign followed by
one of `digits`, `digits.digits`, `digits.` or `.digits`.  Everything
else yields `none`, modelling the `ValueError` branches of the source.
This restricted parser is used only on the paths where a NaN value and a
parse failure are indistinguishable (filter thresholds, orientation, the
NaN-tolerant loaders); the sort path, where NaN is observable, uses the
full-domain `pyFloatFullChars` below. -/
def pyFloatChars (t : List Char) : Option Rat :=
  let su : Rat × List Char :=
    match t with
    | '-' :: rest => (-1, rest)
    | '+' :: rest => (1, rest)
    | _ => (1, t)
  match splitIf (fun c => c == '.') su.2 with
  | [w] =>
    if w ≠ [] ∧ w.all Char.isDigit then
      some (su.1 * (digitsToNat w : Rat))
    else none
  | [w, f] =>
    if (w ≠ [] ∨ f ≠ []) ∧ w.all Char.isDigit ∧ f.all Char.isDigit then
      some (su.1 * ((digitsToNat w : Rat) +
        (digitsToNat f : Rat) / ((10 : Rat) ^ f.length)))
    else none
  | _ => none

/-- Model of Python `float(s)` returning an exact rational. -/
def pyFloat? (s : String) : Option Rat :=
  pyFloatChars (trimChars s.toList)

/-- Embedding of `read_tsv_13`: walks the records of one tab-separated file
and raises (modelled as `.error`) at the first record whose column count is
not 13, otherwise returns all rows.  The source's error message carries the
path and the actual count; the model keeps a fixed message. -/
def read_tsv_13 : List (List String) → Except String (List (List String))
  | [] => .ok []
  | rec :: rest =>
    if rec.length ≠ 13 then .error "expected 13 columns"
    else
      match read_tsv_13 rest with
      | .ok rows => .ok (rec :: rows)
      | .error e => .error e

/-- Embedding of the inner `pick` closure of `filter_one_file`: one tier,
collecting every row whose `length` field parses to at least
`gene_length * mult`; rows whose `length` field does not parse are skipped
for this tier only. -/
def pick (gl : Rat) (rows : List (List String)) (mult : Rat) : List (List String) :=
  match rows with
  | [] => []
  | r :: rest =>
    match pyFloat? (r.getD IDX_LENGTH "") with
    | none => pick gl rest mult
    | some lv => if gl * mult ≤ lv then r :: pick gl rest mult else pick gl rest mult

/-- Embedding of `filter_one_file`.  A `none` input models a file whose
`open` raises (unreadable file); the surrounding `try/except` of the source
turns every such failure, and every column-count failure from
`read_tsv_13`, into an empty result after logging a warning. -/
def filter_one_file (file : Option (List (List String)))
    (parm2 parm3 parm4 parm5 : Rat) : List (List String) :=
  match file with
  | none => []
  | some recs =>
    match read_tsv_13 recs with
    | .error _ => []
    | .ok rows =>
      match rows with
      | [] => []
      | r0 :: _ =>
        match pyFloat? (r0.getD IDX_GENELEN "") with
        | none => []
        | some gl =>
          if gl ≤ parm2 then []
          else
            match pick gl rows parm3 with
            | [] =>
              match pick gl rows parm4 with
              | [] => pick gl rows parm5
              | out => out
            | out => out

/-- Specification-side definition, written from the spec's words for
comparison with the source's `pick` loop: the tier of multiplier `mult` is
the sublist of rows whose length field parses as a float that is at least
`gene_length × mult`, unparsable length rows being skipped. -/
def tierSpec (gl mult : Rat) (rows : List (List String)) : List (List String) :=
  rows.filter (fun r =>
    match pyFloat? (r.getD IDX_LENGTH "") with
    | some lv => decide (gl * mult ≤ lv)
    | none => false)

theorem pick_eq_tierSpec (gl mult : Rat) (rows : List (List String)) :
    pick gl rows mult = tierSpec gl mult rows := by
  induction rows with
  | nil => rfl
  | cons r rest ih =>
    simp only [pick, tierSpec, List.filter_cons]
    cases h : pyFloat? (r.getD IDX_LENGTH "") with
    | none => simpa [h, tierSpec] using ih
    | some lv =>
      by_cases hle : gl * mult ≤ lv
      · simpa [h, hle, tierSpec] using ih
      · simpa [h, hle, tierSpec] using ih

theorem read_tsv_13_all_ok (recs : List (List String))
    (h : ∀ r, r ∈ recs → r.length = 13) : read_tsv_13 recs = .ok recs := by
  induction recs with
  | nil => rfl
  | cons rec rest ih =>
    have hrec : rec.length = 13 := h rec (List.mem_cons_self rec rest)
    have hrest : read_tsv_13 rest = .ok rest :=
      ih (fun r hr => h r (List.mem_cons_of_mem rec hr))
    simp [read_tsv_13, hrec, hrest]

theorem read_tsv_13_err (recs : List (List String))
    (h : ∃ r, r ∈ recs ∧ r.length ≠ 13) :
    read_tsv_13 recs = .error "expected 13 columns" := by
  induction recs with
  | nil => obtain ⟨r, hr, _⟩ := h; exact absurd hr (List.not_mem_nil r)
  | cons rec rest ih =>
    by_cases hrec : rec.length = 13
    · obtain ⟨r, hr, hlen⟩ := h
      rcases List.mem_cons.mp hr with heq | hmem
      · exact absurd (heq ▸ hrec) hlen
      · have := ih ⟨r, hmem, hlen⟩
        simp [read_tsv_13, hrec, this]
    · simp [read_tsv_13, hrec]

/-- C1: for a 13-column input file whose first row's gene_length parses as a
number greater than parm2, the Record Filter returns exactly the collection
of the first multiplier in the fixed order (parm3, parm4, parm5) whose tier
is non-empty, and the empty list when all three tiers are empty — never a
union of tiers. -/
theorem filter_one_file_tier_selection (r0 : List String) (rest : List (List String))
    (parm2 parm3 parm4 parm5 gl : Rat)
    (h13 : ∀ r, r ∈ r0 :: rest → r.length = 13)
    (hgl : pyFloat? (r0.getD IDX_GENELEN "") = some gl)
    (hgt : parm2 < gl) :
    filter_one_file (some (r0 :: rest)) parm2 parm3 parm4 parm5 =
      (if tierSpec gl parm3 (r0 :: rest) ≠ [] then tierSpec gl parm3 (r0 :: rest)
       else if tierSpec gl parm4 (r0 :: rest) ≠ [] then tierSpec gl parm4 (r0 :: rest)
       else tierSpec gl parm5 (r0 :: rest)) := by
  have hread := read_tsv_13_all_ok (r0 :: rest) h13
  have hngt : ¬ gl ≤ parm2 := not_le.mpr hgt
  simp only [filter_one_file, hread, hgl, if_neg hngt, pick_eq_tierSpec]
  cases h3 : tierSpec gl parm3 (r0 :: rest) with
  | cons a as => simp [h3]
  | nil =>
    cases h4 : tierSpec gl parm4 (r0 :: rest) with
    | cons b bs => simp [h4]
    | nil => simp [h4]

/-- Witness for C1: gene_length 1000 > parm2 = 500; the parm3 = 0.9 tier is
empty (600 < 900) and the parm4 = 0.5 tier matches the row (600 ≥ 500), so
the filter returns exactly that row. -/
theorem filter_one_file_tier_selection_witness :
    filter_one_file
        (some [["q", "s", "90", "600", "0", "0", "1", "2", "100", "200", "0", "50", "1000"]])
        500 (9/10) (1/2) (1/10) =
      [["q", "s", "90", "600", "0", "0", "1", "2", "100", "200", "0", "50", "1000"]] := by
  have h := filter_one_file_tier_selection
    ["q", "s", "90", "600", "0", "0", "1", "2", "100", "200", "0", "50", "1000"] []
    500 (9/10) (1/2) (1/10) 1000
    (by decide) (by with_unfolding_all decide) (by with_unfolding_all decide)
  rw [h]
  with_unfolding_all decide

/-- C4: for a well-formed input file whose first row's gene_length is ≤
parm2, or does not parse as a number, and for a zero-row file, the Record
Filter returns an empty result regardless of the other records. -/
theorem filter_one_file_gate_empty (recs : List (List String))
    (parm2 parm3 parm4 parm5 : Rat)
    (h13 : ∀ r, r ∈ recs → r.length = 13)
    (hgate : recs = [] ∨ ∃ r0 rest, recs = r0 :: rest ∧
      (pyFloat? (r0.getD IDX_GENELEN "") = none ∨
       ∃ gl, pyFloat? (r0.getD IDX_GENELEN "") = some gl ∧ gl ≤ parm2)) :
    filter_one_file (some recs) parm2 parm3 parm4 parm5 = [] := by
  rcases hgate with rfl | ⟨r0, rest, rfl, hcase⟩
  · simp [filter_one_file, read_tsv_13]
  · have hread := read_tsv_13_all_ok (r0 :: rest) h13
    rcases hcase with hnone | ⟨gl, hsome, hle⟩
    · simp only [filter_one_file, hread, hnone]
    · simp only [filter_one_file, hread, hsome, if_pos hle]

/-- Witness for C4: a single-row file with gene_length 100 ≤ parm2 = 500 is
filtered to nothing even though its length field would pass every tier. -/
theorem filter_one_file_gate_empty_witness :
    filter_one_file
        (some [["q", "s", "90", "600", "0", "0", "1", "2", "100", "200", "0", "50", "100"]])
        500 (9/10) (1/2) (1/10) = [] :=
  filter_one_file_gate_empty _ 500 (9/10) (1/2) (1/10) (by decide)
    (Or.inr ⟨_, _, rfl,
      Or.inr ⟨100, by with_unfolding_all decide, by with_unfolding_all decide⟩⟩)

/-- C5: the Record Filter task never propagates a failure: an unreadable
file (modelled as a `none` input) and a file containing a record whose
column count is not 13 both yield an empty result instead of aborting. -/
theorem filter_one_file_no_propagation (inp : Option (List (List String)))
    (parm2 parm3 parm4 parm5 : Rat)
    (hbad : inp = none ∨ ∃ recs, inp = some recs ∧ ∃ r, r ∈ recs ∧ r.length ≠ 13) :
    filter_one_file inp parm2 parm3 parm4 parm5 = [] := by
  rcases hbad with rfl | ⟨recs, rfl, hbadrow⟩
  · rfl
  · simp [filter_one_file, read_tsv_13_err recs hbadrow]

/-- Witness for C5: a file whose only record has 2 columns contributes an
empty result. -/
theorem filter_one_file_no_propagation_witness :
    filter_one_file (some [["only", "two"]]) 1 2 3 4 = [] :=
  filter_one_file_no_propagation _ 1 2 3 4
    (Or.inr ⟨_, rfl, ["only", "two"], by decide, by decide⟩)

/-- auxiliary loop of the dedup pass of `enrich_and_write`: `seen` is the
set of already-emitted rows, rows are kept on first sight. -/
def dedupAux (seen : List (List String)) : List (List String) → List (List String)
  | [] => []
  | r :: rest =>
    if r ∈ seen then dedupAux seen rest
    else r :: dedupAux (r :: seen) rest

/-- Embedding of the dedup pass of `enrich_and_write` (R's `!duplicated`):
keep each distinct row the first time it is seen. -/
def pyDedup (rows : List (List String)) : List (List String) := dedupAux [] rows

/-- Specification-side definition, written from the spec's words: the
deduplicated list keeps the first occurrence of each distinct row, in
first-seen order. -/
def specFirstSeen (rows : List (List String)) : List (List String) :=
  rows.foldl (fun acc r => if r ∈ acc then acc else acc ++ [r]) []

theorem mem_dedupAux (a : List String) (l : List (List String)) : ∀ seen,
    (a ∈ dedupAux seen l ↔ a ∈ l ∧ a ∉ seen) := by
  induction l with
  | nil => intro seen; simp [dedupAux]
  | cons r rest ih =>
    intro seen
    by_cases hr : r ∈ seen <;> by_cases har : a = r
    · subst har; simp [dedupAux, hr, ih]
    · simp [dedupAux, hr, ih, har]
    · subst har; simp [dedupAux, hr, ih, List.mem_cons]
    · simp [dedupAux, hr, ih, har, List.mem_cons]

theorem dedupAux_nodup (l : List (List String)) : ∀ seen, (dedupAux seen l).Nodup := by
  induction l with
  | nil => intro seen; simp [dedupAux]
  | cons r rest ih =>
    intro seen
    by_cases hr : r ∈ seen
    · simpa [dedupAux, hr] using ih seen
    · rw [dedupAux, if_neg hr]
      refine List.nodup_cons.mpr ⟨?_, ih (r :: seen)⟩
      intro hmem
      exact ((mem_dedupAux r rest (r :: seen)).mp hmem).2 (List.mem_cons_self r seen)

theorem dedupAux_eq_self (l : List (List String)) : ∀ seen, l.Nodup →
    (∀ a, a ∈ l → a ∉ seen) → dedupAux seen l = l := by
  induction l with
  | nil => intro seen _ _; rfl
  | cons r rest ih =>
    intro seen hnd hdisj
    have hr : r ∉ seen := hdisj r (List.mem_cons_self r rest)
    rw [dedupAux, if_neg hr]
    congr 1
    refine ih (r :: seen) (List.nodup_cons.mp hnd).2 ?_
    intro a ha hmem
    rcases List.mem_cons.mp hmem with rfl | hseen
    · exact (List.nodup_cons.mp hnd).1 ha
    · exact hdisj a (List.mem_cons_of_mem r ha) hseen

theorem foldl_dedup_eq (l : List (List String)) : ∀ (acc seen : List (List String)),
    (∀ a, a ∈ acc ↔ a ∈ seen) →
    l.foldl (fun acc r => if r ∈ acc then acc else acc ++ [r]) acc =
      acc ++ dedupAux seen l := by
  induction l with
  | nil => intro acc seen _; simp [dedupAux]
  | cons r rest ih =>
    intro acc seen hiff
    by_cases hr : r ∈ seen
    · have hracc : r ∈ acc := (hiff r).mpr hr
      rw [List.foldl_cons, if_pos hracc, dedupAux, if_pos hr]
      exact ih acc seen hiff
    · have hracc : r ∉ acc := fun h => hr ((hiff r).mp h)
      rw [List.foldl_cons, if_neg hracc, dedupAux, if_neg hr,
        ih (acc ++ [r]) (r :: seen) ?_]
      · simp
      · intro a
        simp only [List.mem_append, List.mem_singleton, List.mem_cons, hiff a,
          List.not_mem_nil, or_false]
        exact or_comm

/-- C9: the dedup pass removes rows equal by exact tuple equality, keeping
the first occurrence of each distinct row in first-seen position (it equals
the first-seen specification and is duplicate-free with exactly the input's
members), and it is idempotent. -/
theorem dedup_first_seen_stable_idempotent (l : List (List String)) :
    pyDedup l = specFirstSeen l ∧ (pyDedup l).Nodup ∧
      (∀ a, a ∈ pyDedup l ↔ a ∈ l) ∧ pyDedup (pyDedup l) = pyDedup l := by
  have hmem : ∀ a, a ∈ pyDedup l ↔ a ∈ l := by
    intro a
    simpa [pyDedup] using mem_dedupAux a l []
  have hnd : (pyDedup l).Nodup := dedupAux_nodup l []
  refine ⟨?_, hnd, hmem, ?_⟩
  · have h := foldl_dedup_eq l [] [] (by simp)
    simpa [specFirstSeen, pyDedup] using h.symm
  · exact dedupAux_eq_self (pyDedup l) [] hnd (by simp)

/-- Final 20-column output header of `contigs_of_interest.csv`. -/
def FINAL_HEADER : List String :=
  ["query_name", "subject_name", "identity", "length", "mismatch", "gap",
   "query_start", "query_end", "subject_start", "subject_end",
   "genomic_start", "genomic_end", "E_value", "bit_score", "gene_length",
   "ref_scaff", "scaff_start", "scaff_stop", "orientation", "contig_length"]

/-- Python float values as the sort path of the program sees them: a
finite value (an exact rational), NaN, or a signed infinity.  NaN must be
distinguished here because `float("nan")` succeeds in `srt`, unlike every
other non-numeral string. -/
inductive PyFloat
  | num (q : Rat)
  | nan
  | inf
  | ninf
deriving DecidableEq

/-- Python's `<` on floats: every comparison with NaN is false; the
infinities compare as usual. -/
def pyLt : PyFloat → PyFloat → Bool
  | .nan, _ => false
  | _, .nan => false
  | .num a, .num b => decide (a < b)
  | .num _, .inf => true
  | .num _, .ninf => false
  | .inf, _ => false
  | .ninf, .ninf => false
  | .ninf, _ => true

/-- Model of Python `float(s)` on the full value domain the sort path can
see: the numeral fragment of `pyFloatChars` plus the `nan`, `inf` and
`infinity` literals with an optional sign (the spellings Python `str`
emits and the pipeline writes back into genomic_start; Python also
accepts other letter cases, which the pipeline never produces). -/
def pyFloatFullChars (t : List Char) : Option PyFloat :=
  let su : Bool × List Char :=
    match t with
    | '-' :: rest => (true, rest)
    | '+' :: rest => (false, rest)
    | _ => (false, t)
  if su.2 = ['n', 'a', 'n'] then some PyFloat.nan
  else if su.2 = ['i', 'n', 'f'] ∨ su.2 = ['i', 'n', 'f', 'i', 'n', 'i', 't', 'y'] then
    some (if su.1 then PyFloat.ninf else PyFloat.inf)
  else (pyFloatChars t).map PyFloat.num

/-- Model of Python `float(s)` over the full float value domain. -/
def pyFloatFull? (s : String) : Option PyFloat :=
  pyFloatFullChars (trimChars s.toList)

/-- Embedding of the sort key `srt` of `enrich_and_write`: the
`genomic_start` column (index `FINAL_HEADER.index "genomic_start" = 10`,
which coincides with `IDX_EVALUE`) through Python `float`.  The
`except ValueError: return math.inf` branch fires only when the parse
fails; the string `"nan"` (written for every query_name missing from the
annotation map) parses successfully and keeps its NaN key. -/
def srtKey (row : List String) : PyFloat :=
  match pyFloatFull? (row.getD IDX_EVALUE "") with
  | some v => v
  | none => PyFloat.inf

theorem gs_index_eq : List.indexOf "genomic_start" FINAL_HEADER = IDX_EVALUE := by
  decide

/-- The bisection of CPython's `binarysort`: position for `x` in the
prefix list `a` between indices `l` and `r`, halving with `<` only
(upper-bound semantics: equals end up before the inserted element).  The
fuel is only a termination device; `a.length + 1` steps always reach
`l = r` because each step shrinks `r - l`. -/
def binSearchGo (lt : α → α → Bool) (x : α) (a : List α) :
    Nat → Nat → Nat → Nat
  | 0, l, _ => l
  | fuel + 1, l, r =>
    if l < r then
      let mid := (l + r) / 2
      if lt x (a.getD mid x) then binSearchGo lt x a fuel l mid
      else binSearchGo lt x a fuel (mid + 1) r
    else l

/-- Insertion position of `x` into the sorted prefix `a`, as computed by
CPython's `binarysort` (`l = lo`, `r = start`). -/
def binSearchUB (lt : α → α → Bool) (x : α) (a : List α) : Nat :=
  binSearchGo lt x a (a.length + 1) 0 a.length

/-- The insertion loop of CPython's `binarysort`: each remaining element
is inserted into the already-handled prefix at its bisection position. -/
def binarySortLoop (lt : α → α → Bool) (sorted : List α) : List α → List α
  | [] => sorted
  | x :: rest =>
    binarySortLoop lt (sorted.insertIdx (binSearchUB lt x sorted) x) rest

/-- `count_run` of CPython's sort, ascending case: the run continues while
the next element is not strictly smaller than the previous one; returns
the run and the remaining tail. -/
def runAsc (lt : α → α → Bool) (prev : α) : List α → List α × List α
  | [] => ([], [])
  | x :: xs =>
    if lt x prev then ([], x :: xs)
    else
      let p := runAsc lt x xs
      (x :: p.1, p.2)

/-- `count_run` of CPython's sort, strictly-descending case. -/
def runDesc (lt : α → α → Bool) (prev : α) : List α → List α × List α
  | [] => ([], [])
  | x :: xs =>
    if lt x prev then
      let p := runDesc lt x xs
      (x :: p.1, p.2)
    else ([], x :: xs)

/-- Embedding of CPython `list.sort` on lists of fewer than 64 elements,
where Timsort performs no merges: `minrun` equals the length, so the whole
sort is `count_run` (reversing a strictly descending initial run) followed
by binary insertion of the remaining elements — modelled here instruction
for instruction.  For 64 elements or more Timsort additionally merges
runs; every phase of either algorithm only permutes the list, so the
permutation theorem proved below holds for the full algorithm too, and no
theorem below asserts anything order-sensitive outside this fragment. -/
def pyListSort (lt : α → α → Bool) : List α → List α
  | [] => []
  | [x] => [x]
  | x0 :: x1 :: rest =>
    if lt x1 x0 then
      let p := runDesc lt x1 rest
      binarySortLoop lt (x0 :: x1 :: p.1).reverse p.2
    else
      let p := runAsc lt x1 rest
      binarySortLoop lt (x0 :: x1 :: p.1) p.2

/-- Embedding of `out_rows.sort(key=srt)`: Python's `list.sort` with a key
function compares the keys of the two rows with `<`. -/
def sortRows (rows : List (List String)) : List (List String) :=
  pyListSort (fun a b => pyLt (srtKey a) (srtKey b)) rows

theorem insertIdx_perm_cons (x : α) : ∀ (n : Nat) (l : List α), n ≤ l.length →
    List.Perm (l.insertIdx n x) (x :: l)
  | 0, l, _ => by simp
  | n + 1, [], h => by simp at h
  | n + 1, a :: t, h => by
    rw [List.insertIdx_succ_cons]
    exact ((insertIdx_perm_cons x n t (by simpa using h)).cons a).trans
      (List.Perm.swap x a t)

theorem binSearchGo_le (lt : α → α → Bool) (x : α) (a : List α) :
    ∀ (fuel l r : Nat), l ≤ r → r ≤ a.length →
      binSearchGo lt x a fuel l r ≤ a.length := by
  intro fuel
  induction fuel with
  | zero => intro l r hlr hr; exact le_trans hlr hr
  | succ fuel ih =>
    intro l r hlr hr
    rw [binSearchGo]
    by_cases h : l < r
    · rw [if_pos h]
      by_cases hx : lt x (a.getD ((l + r) / 2) x)
      · rw [if_pos hx]
        exact ih l ((l + r) / 2) (by omega) (by omega)
      · rw [if_neg hx]
        exact ih ((l + r) / 2 + 1) r (by omega) hr
    · rw [if_neg h]
      exact le_trans hlr hr

theorem binarySortLoop_perm (lt : α → α → Bool) :
    ∀ (rest sorted : List α),
      List.Perm (binarySortLoop lt sorted rest) (sorted ++ rest) := by
  intro rest
  induction rest with
  | nil => intro sorted; simp [binarySortLoop]
  | cons x rest ih =>
    intro sorted
    rw [binarySortLoop]
    have hpos : binSearchUB lt x sorted ≤ sorted.length :=
      binSearchGo_le lt x sorted (sorted.length + 1) 0 sorted.length
        (Nat.zero_le _) le_rfl
    have h1 := ih (sorted.insertIdx (binSearchUB lt x sorted) x)
    have h2 : List.Perm (sorted.insertIdx (binSearchUB lt x sorted) x ++ rest)
        ((x :: sorted) ++ rest) :=
      (insertIdx_perm_cons x (binSearchUB lt x sorted) sorted hpos).append_right rest
    exact (h1.trans h2).trans List.perm_middle.symm

theorem runAsc_append (lt : α → α → Bool) :
    ∀ (xs : List α) (prev : α), (runAsc lt prev xs).1 ++ (runAsc lt prev xs).2 = xs := by
  intro xs
  induction xs with
  | nil => intro prev; rfl
  | cons x xs ih =>
    intro prev
    rw [runAsc]
    by_cases h : lt x prev
    · rw [if_pos h]
      rfl
    · rw [if_neg h]
      simpa using ih x

theorem runDesc_append (lt : α → α → Bool) :
    ∀ (xs : List α) (prev : α), (runDesc lt prev xs).1 ++ (runDesc lt prev xs).2 = xs := by
  intro xs
  induction xs with
  | nil => intro prev; rfl
  | cons x xs ih =>
    intro prev
    rw [runDesc]
    by_cases h : lt x prev
    · rw [if_pos h]
      simpa using ih x
    · rw [if_neg h]
      rfl

theorem pyListSort_perm (lt : α → α → Bool) :
    ∀ l : List α, List.Perm (pyListSort lt l) l := by
  intro l
  match l with
  | [] => exact List.Perm.refl _
  | [x] => exact List.Perm.refl _
  | x0 :: x1 :: rest =>
    rw [pyListSort]
    by_cases h : lt x1 x0
    · rw [if_pos h]
      refine (binarySortLoop_perm lt _ _).trans ?_
      refine (((x0 :: x1 :: (runDesc lt x1 rest).1).reverse_perm).append_right _).trans ?_
      rw [List.cons_append, List.cons_append, runDesc_append lt rest x1]
    · rw [if_neg h]
      refine (binarySortLoop_perm lt _ _).trans ?_
      rw [List.cons_append, List.cons_append, runAsc_append lt rest x1]

/-- The three concrete enriched rows of C2's failing input: genomic_start
fields "5", "nan" (query_name missing from the annotation map, the NaN
sentinel written back by `str`), and "3". -/
def rowStart5 : List String :=
  ["q1", "c1", "90", "600", "0", "0", "1", "2", "100", "200",
   "5", "6", "0", "50", "1000", "sc", "5", "6", "plus", "42"]

/-- Companion row of `rowStart5` whose genomic_start is "nan". -/
def rowStartNan : List String :=
  ["q2", "c2", "90", "600", "0", "0", "1", "2", "100", "200",
   "nan", "nan", "0", "50", "1000", "", "nan", "nan", "minus", "nan"]

/-- Companion row of `rowStart5` whose genomic_start is "3". -/
def rowStart3 : List String :=
  ["q3", "c3", "90", "600", "0", "0", "1", "2", "100", "200",
   "3", "4", "0", "50", "1000", "sc", "3", "4", "plus", "42"]

/-- C2 fails on the code: `float("nan")` succeeds inside `srt`, so a row
whose query_name is missing from the annotation map gets a NaN sort key
instead of the `except`-branch `math.inf`; every comparison with NaN is
false, so the sort leaves the keys `5, nan, 3` exactly in place — the
output is not ascending by genomic_start (a key-5 row precedes a key-3
row) and the NaN row sits between parsable rows instead of after them.
The claim matches the code's evident intent (the `except` branch returns
`math.inf` precisely to sort unknown starts last, and the code's own
comment reads "Arrange by genomic_start asc"), so the code, not the
claim, is wrong. -/
theorem sort_nan_keys_unsorted :
    sortRows [rowStart5, rowStartNan, rowStart3] =
      [rowStart5, rowStartNan, rowStart3] ∧
    srtKey rowStart5 = PyFloat.num 5 ∧
    srtKey rowStartNan = PyFloat.nan ∧
    srtKey rowStart3 = PyFloat.num 3 ∧
    pyLt (srtKey rowStart3) (srtKey rowStart5) = true := by
  with_unfolding_all decide

/-- Embedding of the orientation computation of `enrich_and_write`: both
`subject_start` (index 8) and `subject_end` (index 9) are parsed; if either
raises `ValueError` (parse failure, `none` here) the `except` branch yields
"minus", otherwise "plus" exactly when `subject_start < subject_end`. -/
def orientationOf (base : List String) : String :=
  match pyFloat? (base.getD 8 ""), pyFloat? (base.getD 9 "") with
  | some s, some e => if s < e then "plus" else "minus"
  | _, _ => "minus"

/-- Smallest exponent `k` with `den ∣ 10 ^ k`, when one exists (searching
up to `den` suffices, since a 10-smooth `den` has such a `k ≤ den`). -/
def decExp (den : Nat) : Option Nat :=
  (List.range (den + 1)).find? (fun k => decide (10 ^ k % den = 0))

/-- Rendering of an optional rational back to a field string, modelling
Python `str` on the floats the pipeline stores: the NaN sentinel prints
"nan", integral values print as plain integers (Python prints `100.0`;
both spellings re-parse to the same value), and every other value parsed
from a decimal string prints as the exact decimal `intpart.fracpart`,
which re-parses to the same rational under `pyFloat?`/`pyFloatFull?`.  A
rational whose denominator divides no power of ten cannot arise from the
pipeline's parsed inputs; it falls back to a `num/den` spelling. -/
def pyStr : Option Rat → String
  | none => "nan"
  | some q =>
    if q.den = 1 then toString q.num
    else
      match decExp q.den with
      | some k =>
        let scaled := q.num.natAbs * (10 ^ k / q.den)
        let fds := Nat.toDigits 10 (scaled % 10 ^ k)
        (if q.num < 0 then "-" else "") ++ toString (scaled / 10 ^ k) ++ "." ++
          String.mk (List.replicate (k - fds.length) '0') ++ String.mk fds
      | none => toString q.num ++ "/" ++ toString q.den

/-- Embedding of the per-row enrichment of `enrich_and_write`.  `genes` is
the directory's GeneAnnotationMap (`genes.get(qname, (nan, nan, ""))`
modelled by `Option.getD`), `contig_len_map` the shared ContigLengthMap
(missing key and NaN value both render as "nan").  `genomic_start` and
`genomic_end` are inserted before `E_value` (index 10), then
`ref_scaff`, `scaff_start`, `scaff_stop`, `orientation`, `contig_length`
are appended; the source's `row_map` reordering by `FINAL_HEADER` is the
identity permutation on the resulting 20 fields. -/
def enrichRow (genes : String → Option (Option Rat × Option Rat × String))
    (contig_len_map : String → Option Rat) (base : List String) : List String :=
  let orientation := orientationOf base
  let info := (genes (base.getD 0 "")).getD (none, none, "")
  let start := info.1
  let stop := info.2.1
  let scaff := info.2.2
  let clen := contig_len_map (base.getD 1 "")
  let base2 := (base.insertIdx IDX_EVALUE (pyStr start)).insertIdx
    (IDX_EVALUE + 1) (pyStr stop)
  base2 ++ [scaff, pyStr start, pyStr stop, orientation, pyStr clen]

/-- Embedding of the row-list part of `enrich_and_write`: dedup, enrich
each surviving row, sort by genomic_start. -/
def enrich_rows (genes : String → Option (Option Rat × Option Rat × String))
    (contig_len_map : String → Option Rat)
    (base_rows : List (List String)) : List (List String) :=
  sortRows ((pyDedup base_rows).map (enrichRow genes contig_len_map))

/-- Embedding of the per-directory behaviour of `main` + `enrich_and_write`:
a directory whose `queries` folder has no discovered csv files is dropped
before dispatch (`if fs` filter) and never reaches `enrich_and_write`
(result `none`); otherwise its accumulated filtered rows are enriched and
written under the fixed header (result `some` of the written lines). -/
def processDir (genes : String → Option (Option Rat × Option Rat × String))
    (contig_len_map : String → Option Rat) (parm2 parm3 parm4 parm5 : Rat)
    (files : List (Option (List (List String)))) : Option (List (List String)) :=
  if files = [] then none
  else some (FINAL_HEADER ::
    enrich_rows genes contig_len_map
      (files.flatMap (fun f => filter_one_file f parm2 parm3 parm4 parm5)))

/-- C6: orientation is "plus" exactly when both subject_start (index 8) and
subject_end (index 9) parse as floats with subject_start strictly smaller;
in every other case, parse failures included, it is "minus". -/
theorem orientation_plus_iff (base : List String) (_h13 : base.length = 13) :
    (orientationOf base = "plus" ↔
      ∃ s e, pyFloat? (base.getD 8 "") = some s ∧
        pyFloat? (base.getD 9 "") = some e ∧ s < e) ∧
    (orientationOf base = "plus" ∨ orientationOf base = "minus") := by
  constructor
  · constructor
    · intro hplus
      cases hs : pyFloat? (base.getD 8 "") with
      | none =>
        rw [orientationOf, hs] at hplus
        exact absurd hplus (by simp)
      | some s =>
        cases he : pyFloat? (base.getD 9 "") with
        | none =>
          rw [orientationOf, hs, he] at hplus
          exact absurd hplus (by simp)
        | some e =>
          refine ⟨s, e, rfl, rfl, ?_⟩
          by_contra hlt
          simp only [orientationOf, hs, he, if_neg hlt] at hplus
          exact absurd hplus (by simp)
    · rintro ⟨s, e, hs, he, hlt⟩
      simp only [orientationOf, hs, he, if_pos hlt]
  · cases hs : pyFloat? (base.getD 8 "") with
    | none => right; rw [orientationOf, hs]
    | some s =>
      cases he : pyFloat? (base.getD 9 "") with
      | none => right; rw [orientationOf, hs, he]
      | some e =>
        by_cases hlt : s < e
        · left; simp only [orientationOf, hs, he, if_pos hlt]
        · right; simp only [orientationOf, hs, he, if_neg hlt]

/-- Witness for C6, the spec's own example: subject_start=100,
subject_end=200 gives "plus". -/
theorem orientation_plus_iff_witness :
    orientationOf ["g1", "c1", "95", "600", "0", "0", "1", "2",
      "100", "200", "0", "50", "1000"] = "plus" := by
  have h := (orientation_plus_iff ["g1", "c1", "95", "600", "0", "0", "1", "2",
    "100", "200", "0", "50", "1000"] (by decide)).1
  exact h.mpr ⟨100, 200, by with_unfolding_all decide,
    by with_unfolding_all decide, by with_unfolding_all decide⟩

theorem flatMap_nil_of_all_nil {α β : Type} (l : List α) (f : α → List β)
    (h : ∀ x, x ∈ l → f x = []) : l.flatMap f = [] := by
  induction l with
  | nil => rfl
  | cons a t ih =>
    rw [List.flatMap_cons, h a (List.mem_cons_self a t), List.nil_append]
    exact ih (fun x hx => h x (List.mem_cons_of_mem a hx))

/-- C7: a directory whose queries folder yields zero discovered input files
is dropped before dispatch and produces no output file, while a directory
with at least one input file whose rows all filter to nothing still
produces an output holding exactly the fixed header row. -/
theorem processDir_output_cases
    (genes : String → Option (Option Rat × Option Rat × String))
    (contig_len_map : String → Option Rat) (parm2 parm3 parm4 parm5 : Rat)
    (files : List (Option (List (List String)))) :
    processDir genes contig_len_map parm2 parm3 parm4 parm5 [] = none ∧
    (files ≠ [] →
      (∀ f, f ∈ files → filter_one_file f parm2 parm3 parm4 parm5 = []) →
      processDir genes contig_len_map parm2 parm3 parm4 parm5 files =
        some [FINAL_HEADER]) := by
  refine ⟨rfl, ?_⟩
  intro hne hall
  rw [processDir, if_neg hne,
    flatMap_nil_of_all_nil files (fun f => filter_one_file f parm2 parm3 parm4 parm5) hall]
  rfl

/-- Witness for C7: one unreadable input file contributes an empty result,
and the directory still gets a header-only output; the no-file case yields
no output. -/
theorem processDir_output_cases_witness :
    processDir (fun _ => none) (fun _ => none) 1 2 3 4 [] = none ∧
    processDir (fun _ => none) (fun _ => none) 1 2 3 4 [none] =
      some [FINAL_HEADER] := by
  have h := processDir_output_cases (fun _ => none) (fun _ => none) 1 2 3 4 [none]
  refine ⟨h.1, h.2 (by decide) ?_⟩
  intro f hf
  rcases List.mem_singleton.mp hf with rfl
  rfl

/-- C3 as stated is false: both rows get genomic_start "nan" (empty
annotation map), hence NaN sort keys; they survive deduplication in input
order and the sort does not move them (every comparison with NaN is
false, so `count_run` keeps the whole list as one run), so permuting the
per-directory accumulator's input permutes the final output sequence. -/
theorem enrich_rows_order_sensitive :
    List.Perm
      [["a", "c", "1", "2", "3", "4", "5", "6", "100", "200", "7", "8", "1000"],
       ["b", "c", "1", "2", "3", "4", "5", "6", "100", "200", "7", "8", "1000"]]
      [["b", "c", "1", "2", "3", "4", "5", "6", "100", "200", "7", "8", "1000"],
       ["a", "c", "1", "2", "3", "4", "5", "6", "100", "200", "7", "8", "1000"]] ∧
    enrich_rows (fun _ => none) (fun _ => none)
      [["a", "c", "1", "2", "3", "4", "5", "6", "100", "200", "7", "8", "1000"],
       ["b", "c", "1", "2", "3", "4", "5", "6", "100", "200", "7", "8", "1000"]] ≠
    enrich_rows (fun _ => none) (fun _ => none)
      [["b", "c", "1", "2", "3", "4", "5", "6", "100", "200", "7", "8", "1000"],
       ["a", "c", "1", "2", "3", "4", "5", "6", "100", "200", "7", "8", "1000"]] := by
  with_unfolding_all decide

/-- C3 amended: the Enricher/Writer stage is input-order-insensitive up
to row order — running it on any permutation of the accumulated rows
produces a permutation of the same output rows (deduplication makes the
surviving-row set input-order-independent, and the sort only permutes);
the exact output sequence need not be equal, as the counterexample
shows. -/
theorem enrich_rows_perm_of_perm
    (genes : String → Option (Option Rat × Option Rat × String))
    (contig_len_map : String → Option Rat) (l1 l2 : List (List String))
    (h : List.Perm l1 l2) :
    List.Perm (enrich_rows genes contig_len_map l1)
      (enrich_rows genes contig_len_map l2) := by
  have hd : List.Perm (pyDedup l1) (pyDedup l2) := by
    rw [pyDedup, pyDedup,
      List.perm_ext_iff_of_nodup (dedupAux_nodup l1 []) (dedupAux_nodup l2 [])]
    intro a
    simp [pyDedup, mem_dedupAux a l1 [], mem_dedupAux a l2 [], h.mem_iff]
  simp only [enrich_rows, sortRows]
  exact ((pyListSort_perm _ _).trans
    (hd.map (enrichRow genes contig_len_map))).trans
    (pyListSort_perm _ _).symm

/-- Witness for C3's amended claim: swapping two accumulated rows yields a
permutation of the same enriched output. -/
theorem enrich_rows_perm_of_perm_witness :
    List.Perm
      (enrich_rows (fun _ => none) (fun _ => none)
        [["g1", "c1", "9", "9", "9", "9", "9", "9", "1", "2", "9", "9", "9"],
         ["g2", "c2", "9", "9", "9", "9", "9", "9", "1", "2", "9", "9", "9"]])
      (enrich_rows (fun _ => none) (fun _ => none)
        [["g2", "c2", "9", "9", "9", "9", "9", "9", "1", "2", "9", "9", "9"],
         ["g1", "c1", "9", "9", "9", "9", "9", "9", "1", "2", "9", "9", "9"]]) :=
  enrich_rows_perm_of_perm (fun _ => none) (fun _ => none) _ _
    (by with_unfolding_all decide)

/-- Python `str.strip()` as a string-to-string function. -/
def pyStrip (s : String) : String := String.mk (trimChars s.toList)

/-- Python `str.split()` with no separator: split on whitespace runs,
dropping empty chunks. -/
def pySplitWs (s : String) : List String :=
  ((splitIf Char.isWhitespace s.toList).filter (fun w => w ≠ [])).map
    (fun w => String.mk w)

/-- Python `tok.split(",")`: split at every comma, keeping empty chunks. -/
def splitComma (s : String) : List String :=
  (splitIf (fun c => c == ',') s.toList).map (fun w => String.mk w)

/-- Embedding of the nested `third_token` helper of `load_parameters`:
fewer than 3 whitespace-separated tokens raises. -/
def third_token (line : String) : Except String String :=
  if (pySplitWs line).length < 3 then .error "Bad parameter line"
  else .ok ((pySplitWs line).getD 2 "")

/-- Embedding of `float(third_token(line))` for the direct parameter
lines (body indices 0, 1, 5, 6, 7). -/
def parseDirect (line : String) : Except String Rat :=
  match third_token line with
  | .error e => .error e
  | .ok tok =>
    match pyFloat? tok with
    | some v => .ok v
    | none => .error "could not convert string to float"

/-- Embedding of the nested `special` helper of `load_parameters` for the
compound lines (body indices 2, 3, 4): the third token is split on commas,
a missing comma raises, and the value used is `float(parts[1]) / 10`. -/
def special (line : String) : Except String Rat :=
  match third_token line with
  | .error e => .error e
  | .ok tok =>
    if (splitComma tok).length < 2 then .error "Expected a comma in 3rd token"
    else
      match pyFloat? ((splitComma tok).getD 1 "") with
      | some v => .ok (v / 10)
      | none => .error "could not convert string to float"

/-- Embedding of `load_parameters`: strip every line, drop blank lines,
skip the header line, require at least 8 body lines, then read the five
direct parameters and the three compound ones in the source's evaluation
order, returning the tuple (parm1, ..., parm8). -/
def load_parameters (lines0 : List String) :
    Except String (Rat × Rat × Rat × Rat × Rat × Rat × Rat × Rat) :=
  let body := ((lines0.map pyStrip).filter (fun s => s ≠ "")).drop 1
  if body.length < 8 then
    .error "parameters file must have at least 8 rows after header"
  else do
    let parm1 ← parseDirect (body.getD 0 "")
    let parm2 ← parseDirect (body.getD 1 "")
    let parm6 ← parseDirect (body.getD 5 "")
    let parm7 ← parseDirect (body.getD 6 "")
    let parm8 ← parseDirect (body.getD 7 "")
    let parm3 ← special (body.getD 2 "")
    let parm4 ← special (body.getD 3 "")
    let parm5 ← special (body.getD 4 "")
    .ok (parm1, parm2, parm3, parm4, parm5, parm6, parm7, parm8)

/-- Specification-side definition, from the spec's words: a direct
parameter line is used only if it has at least 3 whitespace-separated
tokens and its third token parses as a float. -/
def specDirectLine (line : String) : Option Rat :=
  if 3 ≤ (pySplitWs line).length then pyFloat? ((pySplitWs line).getD 2 "")
  else none

/-- Specification-side definition, from the spec's words: a compound
parameter line needs at least 3 tokens, its third token must contain a
comma, and the derived value is `float(frac) / 10` where `frac` is the
part after the first comma. -/
def specCompoundLine (line : String) : Option Rat :=
  if 3 ≤ (pySplitWs line).length then
    if 2 ≤ (splitComma ((pySplitWs line).getD 2 "")).length then
      (pyFloat? ((splitComma ((pySplitWs line).getD 2 "")).getD 1 "")).map
        (fun v => v / 10)
    else none
  else none

/-- Specification-side loader, from the spec's words: after skipping the
header and blank lines, at least 8 body lines must exist; parm1, parm2,
parm6, parm7, parm8 come from direct lines 0, 1, 5, 6, 7 and parm3, parm4,
parm5 from compound lines 2, 3, 4; it fails (-> `none`) exactly when any
of those conditions does. -/
def specLoadParameters (lines0 : List String) :
    Option (Rat × Rat × Rat × Rat × Rat × Rat × Rat × Rat) :=
  let body := ((lines0.map pyStrip).filter (fun s => s ≠ "")).drop 1
  if 8 ≤ body.length then do
    let parm1 ← specDirectLine (body.getD 0 "")
    let parm2 ← specDirectLine (body.getD 1 "")
    let parm6 ← specDirectLine (body.getD 5 "")
    let parm7 ← specDirectLine (body.getD 6 "")
    let parm8 ← specDirectLine (body.getD 7 "")
    let parm3 ← specCompoundLine (body.getD 2 "")
    let parm4 ← specCompoundLine (body.getD 3 "")
    let parm5 ← specCompoundLine (body.getD 4 "")
    some (parm1, parm2, parm3, parm4, parm5, parm6, parm7, parm8)
  else none

theorem parseDirect_toOption (line : String) :
    (parseDirect line).toOption = specDirectLine line := by
  simp only [parseDirect, third_token, specDirectLine]
  by_cases h : (pySplitWs line).length < 3
  · simp only [if_pos h, if_neg (by omega : ¬ 3 ≤ (pySplitWs line).length)]
    rfl
  · simp only [if_neg h, if_pos (by omega : 3 ≤ (pySplitWs line).length)]
    cases hp : pyFloat? ((pySplitWs line).getD 2 "") with
    | none => simp only [hp]; rfl
    | some v => simp only [hp]; rfl

theorem special_toOption (line : String) :
    (special line).toOption = specCompoundLine line := by
  simp only [special, third_token, specCompoundLine]
  by_cases h : (pySplitWs line).length < 3
  · simp only [if_pos h, if_neg (by omega : ¬ 3 ≤ (pySplitWs line).length)]
    rfl
  · simp only [if_neg h, if_pos (by omega : 3 ≤ (pySplitWs line).length)]
    by_cases h2 : (splitComma ((pySplitWs line).getD 2 "")).length < 2
    · simp only [if_pos h2,
        if_neg (by omega : ¬ 2 ≤ (splitComma ((pySplitWs line).getD 2 "")).length)]
      rfl
    · simp only [if_neg h2,
        if_pos (by omega : 2 ≤ (splitComma ((pySplitWs line).getD 2 "")).length)]
      cases hp : pyFloat? ((splitComma ((pySplitWs line).getD 2 "")).getD 1 "") with
      | none => simp only [hp]; rfl
      | some v => simp only [hp]; rfl

theorem except_bind_toOption {α β : Type} (x : Except String α)
    (f : α → Except String β) :
    (x >>= f).toOption = (x.toOption >>= fun a => (f a).toOption) := by
  cases x <;> rfl

theorem except_ok_toOption {α : Type} (a : α) :
    (Except.ok a : Except String α).toOption = some a := rfl

/-- C8: the Parameter Loader refines its specification exactly: after
skipping the header and blank lines, parm3/parm4/parm5 are float(frac)/10
of the comma-split third token of body lines 2, 3, 4 and the other five
parameters are direct float parses of the third token of the remaining
body lines, failing precisely when fewer than 8 body lines exist, a used
line has fewer than 3 tokens, a payload does not parse, or a compound
token has no comma. -/
theorem load_parameters_refines_spec (lines0 : List String) :
    (load_parameters lines0).toOption = specLoadParameters lines0 := by
  rw [load_parameters, specLoadParameters]
  by_cases h : (((lines0.map pyStrip).filter (fun s => s ≠ "")).drop 1).length < 8
  · rw [if_pos h, if_neg (by omega)]
    rfl
  · rw [if_neg h, if_pos (by omega)]
    simp only [except_bind_toOption, except_ok_toOption, parseDirect_toOption,
      special_toOption]

/-- Embedding of `load_contig_lengths`: rows of the comma-separated
contig-length file.  A zero-field row is skipped (`if not rec: continue`);
on any other row `rec[0]` is the name and `float(rec[1])` the length, so a
one-field row raises an uncaught `IndexError` (only `ValueError` is
caught), modelled as `.error` aborting the whole load; an unparsable
length is tolerated by substituting the NaN sentinel (`none`).  Entries
are kept in insertion order; the source dict's last-wins overwrite on a
duplicate name is a property of the lookup, not of this pass. -/
def load_contig_lengths :
    List (List String) → Except String (List (String × Option Rat))
  | [] => .ok []
  | rec :: rest =>
    if rec = [] then load_contig_lengths rest
    else if rec.length < 2 then .error "IndexError: list index out of range"
    else
      match load_contig_lengths rest with
      | .ok entries => .ok ((rec.getD 0 "", pyFloat? (rec.getD 1 "")) :: entries)
      | .error e => .error e

theorem load_contig_lengths_ok (recs : List (List String))
    (h : ∀ r, r ∈ recs → r.length ≠ 1) :
    load_contig_lengths recs =
      .ok ((recs.filter (fun r => decide (r ≠ []))).map
        (fun r => (r.getD 0 "", pyFloat? (r.getD 1 "")))) := by
  induction recs with
  | nil => rfl
  | cons rec rest ih =>
    have ihr := ih (fun r hr => h r (List.mem_cons_of_mem rec hr))
    by_cases hnil : rec = []
    · subst hnil
      rw [load_contig_lengths, if_pos rfl, ihr,
        List.filter_cons_of_neg (by simp)]
    · have hne : rec.length ≠ 0 := fun e => hnil (List.length_eq_zero.mp e)
      have h1 : rec.length ≠ 1 := h rec (List.mem_cons_self rec rest)
      have h2 : ¬ rec.length < 2 := by omega
      rw [load_contig_lengths, if_neg hnil, if_neg h2, ihr,
        List.filter_cons_of_pos (by simpa using hnil), List.map_cons]

theorem load_contig_lengths_err (recs : List (List String))
    (h : ∃ r, r ∈ recs ∧ r.length = 1) :
    load_contig_lengths recs = .error "IndexError: list index out of range" := by
  induction recs with
  | nil => obtain ⟨r, hr, _⟩ := h; exact absurd hr (List.not_mem_nil r)
  | cons rec rest ih =>
    by_cases h1 : rec.length = 1
    · have hnil : rec ≠ [] := by
        intro e; subst e; simp at h1
      have h2 : rec.length < 2 := by omega
      rw [load_contig_lengths, if_neg hnil, if_pos h2]
    · obtain ⟨r, hr, hlen⟩ := h
      rcases List.mem_cons.mp hr with rfl | hmem
      · exact absurd hlen h1
      · have herr := ih ⟨r, hmem, hlen⟩
        by_cases hnil : rec = []
        · subst hnil
          rw [load_contig_lengths, if_pos rfl]
          exact herr
        · have hne : rec.length ≠ 0 := fun e => hnil (List.length_eq_zero.mp e)
          have h2 : ¬ rec.length < 2 := by omega
          rw [load_contig_lengths, if_neg hnil, if_neg h2, herr]

theorem load_contig_lengths_skip_empty (recs : List (List String)) :
    load_contig_lengths (recs.filter (fun r => decide (r ≠ []))) =
      load_contig_lengths recs := by
  induction recs with
  | nil => rfl
  | cons rec rest ih =>
    by_cases hnil : rec = []
    · subst hnil
      rw [List.filter_cons_of_neg (by simp)]
      rw [ih]
      conv_rhs => rw [load_contig_lengths, if_pos rfl]
    · rw [List.filter_cons_of_pos (by simpa using hnil)]
      rw [load_contig_lengths, if_neg hnil]
      conv_rhs => rw [load_contig_lengths, if_neg hnil]
      rw [ih]

/-- C10: the contig-length loader silently skips only zero-field rows; a
row with exactly one field (name but no length column) makes the whole
load fail with an uncaught error, while rows with two or more fields and
an unparsable length are tolerated by substituting the NaN sentinel for
that entry without failing the load. -/
theorem load_contig_lengths_one_field_fails (recs : List (List String)) :
    ((load_contig_lengths recs).toOption = none ↔ ∃ r, r ∈ recs ∧ r.length = 1) ∧
    load_contig_lengths (recs.filter (fun r => decide (r ≠ []))) =
      load_contig_lengths recs ∧
    ((∀ r, r ∈ recs → r.length ≠ 1) →
      load_contig_lengths recs =
        .ok ((recs.filter (fun r => decide (r ≠ []))).map
          (fun r => (r.getD 0 "", pyFloat? (r.getD 1 ""))))) := by
  refine ⟨⟨?_, ?_⟩, load_contig_lengths_skip_empty recs, load_contig_lengths_ok recs⟩
  · intro hfail
    by_contra hno
    push_neg at hno
    rw [load_contig_lengths_ok recs (fun r hr => hno r hr)] at hfail
    exact absurd hfail (by simp [Except.toOption])
  · intro hex
    rw [load_contig_lengths_err recs hex]
    rfl

/-- Witness for C10: a one-field row fails the whole load even when a
well-formed row follows; a skipped zero-field row and an unparsable length
leave the load succeeding with the NaN sentinel. -/
theorem load_contig_lengths_one_field_fails_witness :
    (load_contig_lengths [["ctg1"], ["ctg2", "500"]]).toOption = none ∧
    load_contig_lengths [[], ["ctg2", "xyz"]] = .ok [("ctg2", none)] := by
  constructor
  · exact (load_contig_lengths_one_field_fails [["ctg1"], ["ctg2", "500"]]).1.mpr
      ⟨["ctg1"], by decide, by decide⟩
  · rw [(load_contig_lengths_one_field_fails [[], ["ctg2", "xyz"]]).2.2 (by decide)]
    with_unfolding_all rfl
